import Mathlib

/-
Shallow embedding of the Vue Notes collaboration server (src/server/main.py).

Connections (WebSocket objects) are modelled by their identities as natural
numbers.  A Python `set` of connections is modelled as a duplicate-free
`List Nat` (insertion order is the iteration order; Python set iteration
order is unspecified, and nothing proved below depends on it).  Byte strings
(`bytes` / `bytearray`) are `List Nat`.  `datetime.now()` values are passed
in explicitly as `Nat` timestamps.  Object identity of `DocumentRoom`
instances matters (sessions keep a direct reference to their room across a
possible registry deletion), so rooms live in a heap addressed by `Nat` and
the global `rooms` dict maps room ids to heap addresses.  A transport send
that raises is modelled by a predicate `fails : Nat -> Bool` giving, for one
broadcast call, which recipients' `send_bytes` raises.
-/

abbrev Bytes := List Nat

/-- Python `set.add` on the membership set: insert the element if absent. -/
def setAdd (s : List Nat) (x : Nat) : List Nat :=
  if x ∈ s then s else s ++ [x]

/-- `DocumentRoom.__init__` fields (main.py lines 44-49): `room_id`,
`connections` (a set of WebSockets), `state` (a bytearray), `last_updated`. -/
structure DocumentRoom where
  room_id : String
  connections : List Nat
  state : Bytes
  last_updated : Nat
deriving DecidableEq

/-- `DocumentRoom(room_id)`: empty connection set, empty state,
`last_updated = datetime.now()` (the current time is passed in as `now`). -/
def DocumentRoom.init (room_id : String) (now : Nat) : DocumentRoom :=
  { room_id := room_id, connections := [], state := [], last_updated := now }

/-- Observable trace of one `broadcast` call: `attempts` records every
`send_bytes(message)` call made (connection, payload) in iteration order,
`delivered` the attempts that did not raise, `disconnected` the connections
whose send raised (the local `disconnected` set of the source). -/
structure BroadcastResult where
  attempts : List (Nat × Bytes)
  delivered : List (Nat × Bytes)
  disconnected : List Nat
deriving DecidableEq

/-- The `for connection in self.connections` loop of `broadcast`
(main.py lines 53-60): skip `exclude`, try `send_bytes`, collect failures. -/
def broadcastRun (message : Bytes) (exclude : Option Nat) (fails : Nat → Bool) :
    List Nat → BroadcastResult
  | [] => { attempts := [], delivered := [], disconnected := [] }
  | c :: cs =>
    let r := broadcastRun message exclude fails cs
    if some c = exclude then r
    else if fails c then
      { attempts := (c, message) :: r.attempts, delivered := r.delivered,
        disconnected := c :: r.disconnected }
    else
      { attempts := (c, message) :: r.attempts, delivered := (c, message) :: r.delivered,
        disconnected := r.disconnected }

/-- `DocumentRoom.broadcast` (main.py lines 51-63): run the send loop over
`self.connections`, then `self.connections -= disconnected`.  Every
per-recipient exception is caught inside the loop, so the call as a whole
never raises: it is a total function. -/
def DocumentRoom.broadcast (room : DocumentRoom) (message : Bytes) (exclude : Option Nat)
    (fails : Nat → Bool) : DocumentRoom × BroadcastResult :=
  let res := broadcastRun message exclude fails room.connections
  ({ room with
      connections := room.connections.filter (fun c => !decide (c ∈ res.disconnected)) },
   res)

/-- Python dict lookup `d[k]` / `k in d` on a string-keyed dict modelled as an
association list with unique keys. -/
def dictGet {α : Type} : List (String × α) → String → Option α
  | [], _ => none
  | p :: ps, k => if p.1 = k then some p.2 else dictGet ps k

/-- Python `del d[k]`: drop the entry with key `k`. -/
def dictDel {α : Type} (d : List (String × α)) (k : String) : List (String × α) :=
  d.filter (fun p => !decide (p.1 = k))

/-- The process state: the heap of `DocumentRoom` objects (addressed by
position of allocation) and the global `rooms` dict mapping a room id to the
address of its `DocumentRoom`. -/
structure Server where
  heap : List DocumentRoom
  registry : List (String × Nat)
deriving DecidableEq

def emptyServer : Server := { heap := [], registry := [] }

/-- Dereference a heap address (out-of-range addresses, which never occur in
reachable states, give a junk empty room). -/
def heapGet (h : List DocumentRoom) (a : Nat) : DocumentRoom :=
  h.getD a (DocumentRoom.init "" 0)

/-- The room object a server state holds at address `a`. -/
def roomAt (s : Server) (a : Nat) : DocumentRoom :=
  heapGet s.heap a

/-- `get_or_create_room` (main.py lines 68-73): if `room_id not in rooms`,
allocate `DocumentRoom(room_id)` and insert it; return the room (here: its
heap address, which is the object identity). -/
def get_or_create_room (s : Server) (room_id : String) (now : Nat) : Server × Nat :=
  match dictGet s.registry room_id with
  | some a => (s, a)
  | none =>
    let a := s.heap.length
    ({ heap := s.heap ++ [DocumentRoom.init room_id now],
       registry := s.registry ++ [(room_id, a)] }, a)

/-- The connection phase of `websocket_sync` (main.py lines 109-118):
`get_or_create_room`, `room.connections.add(websocket)`, then send the
current state to the new client if it is non-empty.  Returns the new server
state, the address of the room the session holds, and the snapshot payload
sent to the client (`none` when the state was empty and nothing was sent). -/
def connect (s : Server) (room_id : String) (ws : Nat) (now : Nat) :
    Server × Nat × Option Bytes :=
  let sa := get_or_create_room s room_id now
  let room := roomAt sa.1 sa.2
  let room1 := { room with connections := setAdd room.connections ws }
  let snap := if room1.state = [] then none else some room1.state
  ({ sa.1 with heap := sa.1.heap.set sa.2 room1 }, sa.2, snap)

/-- One iteration of the receive loop of `websocket_sync`
(main.py lines 121-130): `room.state.extend(data)`,
`room.last_updated = datetime.now()`, `room.broadcast(data, exclude=websocket)`.
The session acts on the room object it holds at address `a`. -/
def receiveUpdate (s : Server) (a : Nat) (ws : Nat) (data : Bytes) (now : Nat)
    (fails : Nat → Bool) : Server × BroadcastResult :=
  let room := roomAt s a
  let room1 := { room with state := room.state ++ data, last_updated := now }
  let br := room1.broadcast data (some ws) fails
  ({ s with heap := s.heap.set a br.1 }, br.2)

/-- Python exceptions that the cleanup path can raise. -/
inductive PyErr where
  | keyError
deriving DecidableEq

/-- The `finally` block of `websocket_sync` (main.py lines 136-143):
`room.connections.remove(websocket)` — Python `set.remove`, which raises
`KeyError` when the element is absent — and then, if the room is now empty,
`del rooms[room_id]` (dict deletion, `KeyError` if the key is absent).
Returns the resulting server state together with the exception, if any,
that propagates out of the handler. -/
def sessionCleanup (s : Server) (a : Nat) (room_id : String) (ws : Nat) :
    Server × Option PyErr :=
  let room := roomAt s a
  if ws ∈ room.connections then
    let room1 := { room with connections := room.connections.erase ws }
    let s1 := { s with heap := s.heap.set a room1 }
    if room1.connections = [] then
      match dictGet s1.registry room_id with
      | some _ => ({ s1 with registry := dictDel s1.registry room_id }, none)
      | none => (s1, some PyErr.keyError)
    else (s1, none)
  else (s, some PyErr.keyError)

/-- How the receive loop of a session ended: `WebSocketDisconnect` (orderly
remote close, caught at main.py line 132) or any other exception (caught at
line 134). -/
inductive LoopExit where
  | disconnected
  | error

/-- Termination of `websocket_sync` (main.py lines 132-143): both `except`
arms only log, then the `finally` block runs; the two paths converge on the
same cleanup. -/
def sessionFinish (s : Server) (ex : LoopExit) (a : Nat) (room_id : String) (ws : Nat) :
    Server × Option PyErr :=
  match ex with
  | .disconnected => sessionCleanup s a room_id ws
  | .error => sessionCleanup s a room_id ws

/-- One accepted update event in a session's receive loop: the sender, the
payload, the time of acceptance, and which recipients' sends fail during the
resulting broadcast. -/
structure UpdEvt where
  ws : Nat
  data : Bytes
  now : Nat
  fails : Nat → Bool

/-- Apply one update event to the room object at address `a`. -/
def applyUpd (a : Nat) (s : Server) (u : UpdEvt) : Server :=
  (receiveUpdate s a u.ws u.data u.now u.fails).1

/-- The operations the server interleaves: a connection joining a room, an
accepted update (append + broadcast), and a session terminating (cleanup). -/
inductive Event where
  | conn (room_id : String) (ws : Nat) (now : Nat)
  | upd (a : Nat) (ws : Nat) (data : Bytes) (now : Nat) (fails : Nat → Bool)
  | fin (ex : LoopExit) (a : Nat) (room_id : String) (ws : Nat)

def applyEvent (s : Server) : Event → Server
  | .conn room_id ws now => (connect s room_id ws now).1
  | .upd a ws data now fails => (receiveUpdate s a ws data now fails).1
  | .fin ex a room_id ws => (sessionFinish s ex a room_id ws).1

def runEvents (s : Server) (es : List Event) : Server :=
  es.foldl applyEvent s

/-- A session trace on one room: a connection `ws0` joins (creating the room
when absent) and then a sequence of update events is accepted by that room. -/
def roomTrace (s : Server) (room_id : String) (ws0 : Nat) (now0 : Nat)
    (us : List UpdEvt) : Server :=
  us.foldl (applyUpd (connect s room_id ws0 now0).2.1) (connect s room_id ws0 now0).1

/-- The JSON document written by `save_document` (main.py lines 152-157):
`{"id": doc_id, "content": content, "updated_at": now}`.  The content dict is
opaque to the server and modelled as a string. -/
structure StoredDoc where
  id : String
  content : String
  updated_at : Nat
deriving DecidableEq

/-- `save_document` (main.py lines 145-159): write the wrapper JSON to
`./data/documents/{doc_id}.json`, overwriting any existing file.  The
document directory is modelled as a dict from id to stored document. -/
def save_document (st : List (String × StoredDoc)) (doc_id : String) (content : String)
    (now : Nat) : List (String × StoredDoc) :=
  dictDel st doc_id ++ [(doc_id, { id := doc_id, content := content, updated_at := now })]

/-- HTTP error results raised by the persistence handlers. -/
inductive HTTPError where
  | notFound
deriving DecidableEq

/-- `get_document` (main.py lines 161-170): 404 if the file does not exist,
otherwise return the stored JSON document. -/
def get_document (st : List (String × StoredDoc)) (doc_id : String) :
    Except HTTPError StoredDoc :=
  match dictGet st doc_id with
  | none => Except.error HTTPError.notFound
  | some d => Except.ok d

/-- `delete_document` (main.py lines 172-181): if the file exists, unlink it
and return the new store; otherwise 404. -/
def delete_document (st : List (String × StoredDoc)) (doc_id : String) :
    Except HTTPError (List (String × StoredDoc)) :=
  match dictGet st doc_id with
  | some _ => Except.ok (dictDel st doc_id)
  | none => Except.error HTTPError.notFound

example :
    ((DocumentRoom.mk "r" [1, 2, 3] [] 0).broadcast [170] (some 1)
        (fun _ => false)).2.delivered = [(2, [170]), (3, [170])] := by decide

example :
    (sessionCleanup { heap := [DocumentRoom.mk "r" [1] [] 0], registry := [("r", 0)] }
        0 "r" 5).2 = some PyErr.keyError := by decide

lemma broadcastRun_attempts (message : Bytes) (exclude : Option Nat) (fails : Nat → Bool)
    (l : List Nat) :
    (broadcastRun message exclude fails l).attempts =
      (l.filter (fun c => !decide (some c = exclude))).map (fun c => (c, message)) := by
  induction l with
  | nil => rfl
  | cons c cs ih =>
    by_cases h1 : some c = exclude
    · simp [broadcastRun, h1, List.filter_cons, ih]
    · cases h2 : fails c <;> simp [broadcastRun, h1, h2, List.filter_cons, ih]

lemma broadcastRun_delivered (message : Bytes) (exclude : Option Nat) (fails : Nat → Bool)
    (l : List Nat) :
    (broadcastRun message exclude fails l).delivered =
      (l.filter (fun c => !decide (some c = exclude) && !fails c)).map (fun c => (c, message)) := by
  induction l with
  | nil => rfl
  | cons c cs ih =>
    by_cases h1 : some c = exclude
    · simp [broadcastRun, h1, List.filter_cons, ih]
    · cases h2 : fails c <;> simp [broadcastRun, h1, h2, List.filter_cons, ih]

lemma broadcastRun_disconnected (message : Bytes) (exclude : Option Nat) (fails : Nat → Bool)
    (l : List Nat) :
    (broadcastRun message exclude fails l).disconnected =
      l.filter (fun c => !decide (some c = exclude) && fails c) := by
  induction l with
  | nil => rfl
  | cons c cs ih =>
    by_cases h1 : some c = exclude
    · simp [broadcastRun, h1, List.filter_cons, ih]
    · cases h2 : fails c <;> simp [broadcastRun, h1, h2, List.filter_cons, ih]

lemma mem_broadcastRun_disconnected (message : Bytes) (exclude : Option Nat)
    (fails : Nat → Bool) (l : List Nat) (c : Nat) :
    c ∈ (broadcastRun message exclude fails l).disconnected ↔
      c ∈ l ∧ some c ≠ exclude ∧ fails c = true := by
  rw [broadcastRun_disconnected]
  simp [List.mem_filter, and_assoc]

lemma broadcast_connections (room : DocumentRoom) (message : Bytes) (exclude : Option Nat)
    (fails : Nat → Bool) :
    ((room.broadcast message exclude fails).1).connections =
      room.connections.filter (fun c => decide (some c = exclude) || !fails c) := by
  show room.connections.filter _ = _
  apply List.filter_congr
  intro c hc
  by_cases h1 : some c = exclude
  · simp [mem_broadcastRun_disconnected, h1, hc]
  · cases h2 : fails c <;> simp [mem_broadcastRun_disconnected, h1, h2, hc]

lemma mem_broadcast_connections (room : DocumentRoom) (message : Bytes) (exclude : Option Nat)
    (fails : Nat → Bool) (c : Nat) :
    c ∈ ((room.broadcast message exclude fails).1).connections ↔
      c ∈ room.connections ∧ (some c = exclude ∨ fails c = false) := by
  rw [broadcast_connections]
  by_cases h1 : some c = exclude
  · simp [List.mem_filter, h1]
  · cases h2 : fails c <;> simp [List.mem_filter, h1, h2]

lemma broadcast_state (room : DocumentRoom) (message : Bytes) (exclude : Option Nat)
    (fails : Nat → Bool) :
    ((room.broadcast message exclude fails).1).state = room.state := rfl

lemma broadcast_last_updated (room : DocumentRoom) (message : Bytes) (exclude : Option Nat)
    (fails : Nat → Bool) :
    ((room.broadcast message exclude fails).1).last_updated = room.last_updated := rfl

lemma broadcast_room_id (room : DocumentRoom) (message : Bytes) (exclude : Option Nat)
    (fails : Nat → Bool) :
    ((room.broadcast message exclude fails).1).room_id = room.room_id := rfl

lemma heapGet_set_self (h : List DocumentRoom) (a : Nat) (r : DocumentRoom)
    (ha : a < h.length) : heapGet (h.set a r) a = r := by
  unfold heapGet
  rw [List.getD_eq_getElem?_getD, List.getElem?_set_self ha]
  rfl

lemma heapGet_set_ne (h : List DocumentRoom) (a a' : Nat) (r : DocumentRoom)
    (hne : a' ≠ a) : heapGet (h.set a r) a' = heapGet h a' := by
  unfold heapGet
  rw [List.getD_eq_getElem?_getD, List.getD_eq_getElem?_getD,
    List.getElem?_set_ne (Ne.symm hne)]

lemma heapGet_default (h : List DocumentRoom) (a : Nat) (ha : h.length ≤ a) :
    heapGet h a = DocumentRoom.init "" 0 :=
  List.getD_eq_default _ _ ha

lemma heapGet_append_lt (h h' : List DocumentRoom) (a : Nat) (ha : a < h.length) :
    heapGet (h ++ h') a = heapGet h a :=
  List.getD_append _ _ _ _ ha

lemma heapGet_append_self (h : List DocumentRoom) (r : DocumentRoom) :
    heapGet (h ++ [r]) h.length = r := by
  unfold heapGet
  rw [List.getD_eq_getElem?_getD, List.getElem?_concat_length]
  rfl

lemma set_append_length (h : List DocumentRoom) (x r : DocumentRoom) :
    (h ++ [x]).set h.length r = h ++ [r] := by
  induction h with
  | nil => rfl
  | cons y ys ih => simp [List.set_cons_succ, ih]

lemma dictGet_append_none {α : Type} (d1 d2 : List (String × α)) (k : String)
    (h : dictGet d1 k = none) : dictGet (d1 ++ d2) k = dictGet d2 k := by
  induction d1 with
  | nil => rfl
  | cons p ps ih =>
    by_cases hp : p.1 = k
    · simp [dictGet, hp] at h
    · rw [List.cons_append]
      rw [show dictGet ((p :: (ps ++ d2))) k = dictGet (ps ++ d2) k from if_neg hp]
      rw [show dictGet (p :: ps) k = dictGet ps k from if_neg hp] at h
      exact ih h

lemma mem_of_dictGet_some {α : Type} (d : List (String × α)) (k : String) (v : α)
    (h : dictGet d k = some v) : (k, v) ∈ d := by
  induction d with
  | nil => simp [dictGet] at h
  | cons p ps ih =>
    by_cases hp : p.1 = k
    · simp only [dictGet, hp, if_true] at h
      have hpv : p = (k, v) := by
        obtain ⟨p1, p2⟩ := p
        simp at hp
        simp at h
        simp [hp, h]
      rw [hpv] at *
      exact List.mem_cons_self _ _
    · simp only [dictGet, hp, if_false] at h
      exact List.mem_cons_of_mem _ (ih h)

lemma dictGet_dictDel_self {α : Type} (d : List (String × α)) (k : String) :
    dictGet (dictDel d k) k = none := by
  induction d with
  | nil => rfl
  | cons p ps ih =>
    by_cases hp : p.1 = k
    · simpa [dictDel, List.filter_cons, hp] using ih
    · simpa [dictDel, List.filter_cons, hp, dictGet] using ih

lemma mem_dictDel {α : Type} (d : List (String × α)) (k : String) (p : String × α) :
    p ∈ dictDel d k ↔ p ∈ d ∧ p.1 ≠ k := by
  simp [dictDel, List.mem_filter]

lemma setAdd_ne_nil (s : List Nat) (x : Nat) : setAdd s x ≠ [] := by
  unfold setAdd
  by_cases h : x ∈ s
  · simpa [h] using List.ne_nil_of_mem h
  · simp [h]

lemma count_pair_map (l : List Nat) (c : Nat) (p : Bytes) :
    ((l.map (fun x => (x, p))).count (c, p)) = l.count c := by
  induction l with
  | nil => rfl
  | cons x xs ih =>
    simp only [List.map_cons, List.count_cons, ih, beq_iff_eq, Prod.mk.injEq, and_true]

/-- Claim C1: for every room R, payload p and member m of R, a call to R's
broadcast of p excluding m calls send exactly once for every connection
currently in R's membership other than m, and never sends p to m.  Under
no send failures, each such connection also has p delivered exactly once. -/
theorem C1_broadcast_exclusion (room : DocumentRoom) (m : Nat) (p : Bytes)
    (fails : Nat → Bool) (hnd : room.connections.Nodup) (_hm : m ∈ room.connections) :
    (∀ c ∈ room.connections, c ≠ m →
        ((room.broadcast p (some m) fails).2).attempts.count (c, p) = 1) ∧
    (m, p) ∉ ((room.broadcast p (some m) fails).2).attempts ∧
    (∀ c ∈ room.connections, c ≠ m → fails c = false →
        ((room.broadcast p (some m) fails).2).delivered.count (c, p) = 1) := by
  have hres : (room.broadcast p (some m) fails).2 =
      broadcastRun p (some m) fails room.connections := rfl
  have hinj : Function.Injective (fun c : Nat => (c, p)) := by
    intro x y hxy
    simpa using hxy
  refine ⟨?_, ?_, ?_⟩
  · intro c hc hcm
    rw [hres, broadcastRun_attempts, count_pair_map]
    apply List.count_eq_one_of_mem (hnd.filter _)
    simp [List.mem_filter, hc, hcm]
  · rw [hres, broadcastRun_attempts]
    simp [List.mem_map, List.mem_filter]
  · intro c hc hcm hok
    rw [hres, broadcastRun_delivered, count_pair_map]
    apply List.count_eq_one_of_mem (hnd.filter _)
    simp [List.mem_filter, hc, hcm, hok]

theorem C1_broadcast_exclusion_witness :
    (DocumentRoom.mk "r" [1, 2, 3] [] 0).connections.Nodup ∧
    1 ∈ (DocumentRoom.mk "r" [1, 2, 3] [] 0).connections ∧
    ((∀ c ∈ (DocumentRoom.mk "r" [1, 2, 3] [] 0).connections, c ≠ 1 →
        (((DocumentRoom.mk "r" [1, 2, 3] [] 0).broadcast [170] (some 1)
            (fun _ => false)).2).attempts.count (c, [170]) = 1) ∧
      (1, [170]) ∉ (((DocumentRoom.mk "r" [1, 2, 3] [] 0).broadcast [170] (some 1)
          (fun _ => false)).2).attempts ∧
      (∀ c ∈ (DocumentRoom.mk "r" [1, 2, 3] [] 0).connections, c ≠ 1 →
          (fun _ : Nat => false) c = false →
          (((DocumentRoom.mk "r" [1, 2, 3] [] 0).broadcast [170] (some 1)
              (fun _ => false)).2).delivered.count (c, [170]) = 1)) :=
  ⟨by decide, by decide,
    C1_broadcast_exclusion (DocumentRoom.mk "r" [1, 2, 3] [] 0) 1 [170] (fun _ => false)
      (by decide) (by decide)⟩

/-- Claim C3: in a room with at least three members, if during a broadcast the
send to exactly one recipient f raises, every other non-excluded member still
has the payload delivered exactly once, and after the call f is no longer in
the membership while every other member still is.  The broadcast call is a
total function here because the source catches every per-recipient exception
inside the loop, so it never raises to its caller. -/
theorem C3_failure_isolation (room : DocumentRoom) (m f : Nat) (p : Bytes)
    (hnd : room.connections.Nodup) (_hcard : 3 ≤ room.connections.length)
    (_hm : m ∈ room.connections) (_hf : f ∈ room.connections) (hfm : f ≠ m) :
    (∀ c ∈ room.connections, c ≠ m → c ≠ f →
        ((room.broadcast p (some m) (fun c => c == f)).2).delivered.count (c, p) = 1) ∧
    f ∉ ((room.broadcast p (some m) (fun c => c == f)).1).connections ∧
    (∀ c ∈ room.connections, c ≠ f →
        c ∈ ((room.broadcast p (some m) (fun c => c == f)).1).connections) := by
  have hinj : Function.Injective (fun c : Nat => (c, p)) := by
    intro x y hxy
    simpa using hxy
  refine ⟨?_, ?_, ?_⟩
  · intro c hc hcm hcf
    have hres : (room.broadcast p (some m) (fun c => c == f)).2 =
        broadcastRun p (some m) (fun c => c == f) room.connections := rfl
    rw [hres, broadcastRun_delivered, count_pair_map]
    apply List.count_eq_one_of_mem (hnd.filter _)
    simp [List.mem_filter, hc, hcm, hcf]
  · rw [mem_broadcast_connections]
    simp [hfm]
  · intro c hc hcf
    rw [mem_broadcast_connections]
    exact ⟨hc, Or.inr (by simp [hcf])⟩

theorem C3_failure_isolation_witness :
    (DocumentRoom.mk "r" [1, 2, 3] [] 0).connections.Nodup ∧
    3 ≤ (DocumentRoom.mk "r" [1, 2, 3] [] 0).connections.length ∧
    1 ∈ (DocumentRoom.mk "r" [1, 2, 3] [] 0).connections ∧
    2 ∈ (DocumentRoom.mk "r" [1, 2, 3] [] 0).connections ∧
    (2 : Nat) ≠ 1 ∧
    ((∀ c ∈ (DocumentRoom.mk "r" [1, 2, 3] [] 0).connections, c ≠ 1 → c ≠ 2 →
        (((DocumentRoom.mk "r" [1, 2, 3] [] 0).broadcast [170] (some 1)
            (fun c => c == 2)).2).delivered.count (c, [170]) = 1) ∧
      2 ∉ (((DocumentRoom.mk "r" [1, 2, 3] [] 0).broadcast [170] (some 1)
          (fun c => c == 2)).1).connections ∧
      (∀ c ∈ (DocumentRoom.mk "r" [1, 2, 3] [] 0).connections, c ≠ 2 →
          c ∈ (((DocumentRoom.mk "r" [1, 2, 3] [] 0).broadcast [170] (some 1)
              (fun c => c == 2)).1).connections)) :=
  ⟨by decide, by decide, by decide, by decide, by decide,
    C3_failure_isolation (DocumentRoom.mk "r" [1, 2, 3] [] 0) 1 2 [170]
      (by decide) (by decide) (by decide) (by decide) (by decide)⟩

/-- Claim C10: a broadcast call leaves the room's state log, last-activity
timestamp and identifier unchanged; the only field it mutates is the
membership set, from which it removes exactly those connections whose send
raised during the call (the excluded connection is never sent to, hence
never removed) and no others. -/
theorem C10_broadcast_frame (room : DocumentRoom) (p : Bytes) (e : Option Nat)
    (fails : Nat → Bool) :
    ((room.broadcast p e fails).1).state = room.state ∧
    ((room.broadcast p e fails).1).last_updated = room.last_updated ∧
    ((room.broadcast p e fails).1).room_id = room.room_id ∧
    (∀ c, c ∈ ((room.broadcast p e fails).1).connections ↔
        c ∈ room.connections ∧ (some c = e ∨ fails c = false)) :=
  ⟨rfl, rfl, rfl, fun c => mem_broadcast_connections room p e fails c⟩

lemma connect_existing (s : Server) (room_id : String) (ws now : Nat) (a : Nat)
    (h : dictGet s.registry room_id = some a) :
    connect s room_id ws now =
      (Server.mk
        (s.heap.set a
          (DocumentRoom.mk (roomAt s a).room_id (setAdd (roomAt s a).connections ws)
            (roomAt s a).state (roomAt s a).last_updated))
        s.registry,
       a,
       if (roomAt s a).state = [] then none else some (roomAt s a).state) := by
  simp only [connect, get_or_create_room, h]

lemma connect_new (s : Server) (room_id : String) (ws now : Nat)
    (h : dictGet s.registry room_id = none) :
    connect s room_id ws now =
      (Server.mk (s.heap ++ [DocumentRoom.mk room_id [ws] [] now])
        (s.registry ++ [(room_id, s.heap.length)]),
       s.heap.length, none) := by
  simp only [connect, get_or_create_room, h, roomAt]
  rw [heapGet_append_self]
  simp [setAdd, DocumentRoom.init, set_append_length]

lemma applyUpd_registry (a : Nat) (s : Server) (u : UpdEvt) :
    (applyUpd a s u).registry = s.registry := rfl

lemma applyUpd_heap_length (a : Nat) (s : Server) (u : UpdEvt) :
    (applyUpd a s u).heap.length = s.heap.length := by
  simp only [applyUpd, receiveUpdate]
  exact List.length_set _ _ _

lemma applyUpd_state (a : Nat) (s : Server) (u : UpdEvt) (ha : a < s.heap.length) :
    (roomAt (applyUpd a s u) a).state = (roomAt s a).state ++ u.data := by
  simp only [applyUpd, receiveUpdate, roomAt]
  rw [heapGet_set_self _ _ _ ha]
  rfl

lemma foldUpds_invariant (a : Nat) (us : List UpdEvt) : ∀ (s : Server),
    a < s.heap.length →
    (us.foldl (applyUpd a) s).registry = s.registry ∧
    (us.foldl (applyUpd a) s).heap.length = s.heap.length ∧
    (roomAt (us.foldl (applyUpd a) s) a).state =
      (roomAt s a).state ++ (us.map UpdEvt.data).flatten := by
  induction us with
  | nil =>
    intro s _
    simp
  | cons u us ih =>
    intro s ha
    have ha' : a < (applyUpd a s u).heap.length := by
      rw [applyUpd_heap_length]
      exact ha
    obtain ⟨r1, r2, r3⟩ := ih (applyUpd a s u) ha'
    refine ⟨?_, ?_, ?_⟩
    · rw [List.foldl_cons, r1, applyUpd_registry]
    · rw [List.foldl_cons, r2, applyUpd_heap_length]
    · rw [List.foldl_cons, r3, applyUpd_state a s u ha]
      simp [List.append_assoc]

/-- Claim C2: a connection joining room R after N updates have been accepted
by R is sent, at join time (hence before any subsequently broadcast message),
a single snapshot equal to the concatenation of the N accepted payloads in
acceptance order, and is sent nothing when N = 0.  The first joiner of a
fresh room likewise receives nothing. -/
theorem C2_replay_completeness (s : Server) (room_id : String) (ws0 now0 ws1 now1 : Nat)
    (us : List UpdEvt) (h : dictGet s.registry room_id = none) :
    (connect s room_id ws0 now0).2.2 = none ∧
    (connect (roomTrace s room_id ws0 now0 us) room_id ws1 now1).2.2 =
      (if (us.map UpdEvt.data).flatten = [] then none
       else some ((us.map UpdEvt.data).flatten)) := by
  have hc := connect_new s room_id ws0 now0 h
  constructor
  · rw [hc]
  · have haddr : (connect s room_id ws0 now0).2.1 = s.heap.length := by rw [hc]
    have hs1 : (connect s room_id ws0 now0).1 =
        Server.mk (s.heap ++ [DocumentRoom.mk room_id [ws0] [] now0])
          (s.registry ++ [(room_id, s.heap.length)]) := by rw [hc]
    have ha : s.heap.length < ((connect s room_id ws0 now0).1).heap.length := by
      rw [hs1]
      simp
    obtain ⟨r1, r2, r3⟩ :=
      foldUpds_invariant s.heap.length us ((connect s room_id ws0 now0).1) ha
    have htr : roomTrace s room_id ws0 now0 us =
        us.foldl (applyUpd s.heap.length) ((connect s room_id ws0 now0).1) := by
      rw [roomTrace, haddr]
    have hreg2 : dictGet ((roomTrace s room_id ws0 now0 us)).registry room_id =
        some s.heap.length := by
      rw [htr, r1, hs1]
      show dictGet (s.registry ++ [(room_id, s.heap.length)]) room_id = _
      rw [dictGet_append_none _ _ _ h]
      simp [dictGet]
    have hstate : (roomAt (roomTrace s room_id ws0 now0 us) s.heap.length).state =
        (us.map UpdEvt.data).flatten := by
      rw [htr, r3, hs1]
      show (heapGet (s.heap ++ [DocumentRoom.mk room_id [ws0] [] now0]) s.heap.length).state
          ++ _ = _
      rw [heapGet_append_self]
      rfl
    rw [connect_existing (roomTrace s room_id ws0 now0 us) room_id ws1 now1
      s.heap.length hreg2]
    rw [hstate]

theorem C2_replay_completeness_witness :
    dictGet emptyServer.registry "doc1" = none ∧
    ((connect emptyServer "doc1" 1 0).2.2 = none ∧
      (connect (roomTrace emptyServer "doc1" 1 0
          [UpdEvt.mk 1 [170] 1 (fun _ => false), UpdEvt.mk 2 [187] 2 (fun _ => false)])
          "doc1" 3 5).2.2 =
        (if (([UpdEvt.mk 1 [170] 1 (fun _ => false),
              UpdEvt.mk 2 [187] 2 (fun _ => false)].map UpdEvt.data).flatten) = [] then none
         else some (([UpdEvt.mk 1 [170] 1 (fun _ => false),
              UpdEvt.mk 2 [187] 2 (fun _ => false)].map UpdEvt.data).flatten))) :=
  ⟨by decide,
    C2_replay_completeness emptyServer "doc1" 1 0 3 5
      [UpdEvt.mk 1 [170] 1 (fun _ => false), UpdEvt.mk 2 [187] 2 (fun _ => false)]
      (by decide)⟩

/-- Claim C9: `get_or_create_room` returns the existing room (same heap
address, i.e. the same object identity) when the id is registered, and
otherwise inserts and returns a fresh empty room; two consecutive calls with
the same id yield the same address and the second call leaves the whole
server state unchanged. -/
theorem C9_get_or_create_idempotent (s : Server) (room_id : String) (n1 n2 : Nat) :
    get_or_create_room (get_or_create_room s room_id n1).1 room_id n2 =
      ((get_or_create_room s room_id n1).1, (get_or_create_room s room_id n1).2) ∧
    dictGet ((get_or_create_room s room_id n1).1).registry room_id =
      some (get_or_create_room s room_id n1).2 ∧
    ((dictGet s.registry room_id = some (get_or_create_room s room_id n1).2 ∧
        (get_or_create_room s room_id n1).1 = s) ∨
      (dictGet s.registry room_id = none ∧
        roomAt (get_or_create_room s room_id n1).1 (get_or_create_room s room_id n1).2 =
          DocumentRoom.init room_id n1 ∧
        ((get_or_create_room s room_id n1).1).registry =
          s.registry ++ [(room_id, (get_or_create_room s room_id n1).2)])) := by
  cases hlk : dictGet s.registry room_id with
  | some a =>
    refine ⟨?_, ?_, Or.inl ⟨?_, ?_⟩⟩ <;> simp [get_or_create_room, hlk]
  | none =>
    have hg : dictGet (s.registry ++ [(room_id, s.heap.length)]) room_id =
        some s.heap.length := by
      rw [dictGet_append_none _ _ _ hlk]
      simp [dictGet]
    refine ⟨?_, ?_, Or.inr ⟨rfl, ?_, ?_⟩⟩
    · simp [get_or_create_room, hlk, hg]
    · simp [get_or_create_room, hlk, hg]
    · simp [get_or_create_room, hlk, roomAt, heapGet_append_self]
    · simp [get_or_create_room, hlk]

lemma roomAt_lt_of_ne_nil (s : Server) (a : Nat)
    (h : (roomAt s a).connections ≠ []) : a < s.heap.length := by
  by_contra hle
  push_neg at hle
  rw [roomAt, heapGet_default _ _ hle] at h
  exact h rfl

/-- Claim C4 counterexample: removing a connection that is not in the room's
membership is not a no-op — the cleanup's `set.remove` raises `KeyError`.
Here room "doc" at address 0 has membership {7}, and the cleanup for the
absent connection 9 raises. -/
theorem C4_counterexample :
    (sessionCleanup
        (Server.mk [DocumentRoom.mk "doc" [7] [] 0] [("doc", 0)]) 0 "doc" 9).2 =
      some PyErr.keyError := by decide

/-- Claim C4 amended: the leave operation performed in the session's cleanup
path is not idempotent.  When the connection is not currently in the
membership set — for example because a prior broadcast failure already
removed it — `connections.remove` raises `KeyError` (leaving the server
state unchanged and skipping the registry cleanup) instead of being a
no-op. -/
theorem C4_leave_raises_when_absent (s : Server) (a : Nat) (room_id : String) (ws : Nat)
    (h : ws ∉ (roomAt s a).connections) :
    sessionCleanup s a room_id ws = (s, some PyErr.keyError) := by
  simp [sessionCleanup, h]

theorem C4_leave_raises_when_absent_witness :
    (9 ∉ (roomAt (Server.mk [DocumentRoom.mk "r" [1, 2] [] 0] [("r", 0)]) 0).connections) ∧
    sessionCleanup (Server.mk [DocumentRoom.mk "r" [1, 2] [] 0] [("r", 0)]) 0 "r" 9 =
      (Server.mk [DocumentRoom.mk "r" [1, 2] [] 0] [("r", 0)], some PyErr.keyError) :=
  ⟨by decide,
    C4_leave_raises_when_absent (Server.mk [DocumentRoom.mk "r" [1, 2] [] 0] [("r", 0)])
      0 "r" 9 (by decide)⟩

/-- Claim C5 counterexample: a reachable termination path on which the
cleanup does not run to completion and a fault escapes the handler.  Clients
1 and 2 join room "r"; client 1 sends an update whose broadcast fails to
deliver to client 2, so the broadcast removes 2 from the membership; when
client 2's session then terminates, its cleanup raises `KeyError` (which
propagates out of the handler, and the empty-room deletion step is never
reached). -/
theorem C5_counterexample :
    (sessionFinish
        (receiveUpdate ((connect ((connect emptyServer "r" 1 0).1) "r" 2 0).1)
            0 1 [170] 1 (fun c => c == 2)).1
        LoopExit.disconnected 0 "r" 2).2 = some PyErr.keyError := by decide

/-- Claim C5 amended: on every termination path (orderly close or any other
exception — both `except` arms converge on the same `finally` block) the
cleanup sequence runs and, provided the terminating connection is still in
the room's membership and the room id is still in the registry, it completes
without raising: the connection is removed and the room is deleted from the
registry exactly when the membership becomes empty.  When the connection was
already removed (e.g. by a broadcast send failure), the cleanup instead
raises `KeyError`, which propagates out of the session handler. -/
theorem C5_cleanup_completes_when_member (s : Server) (ex : LoopExit) (a : Nat)
    (room_id : String) (ws : Nat)
    (hws : ws ∈ (roomAt s a).connections)
    (hreg : dictGet s.registry room_id = some a) :
    (sessionFinish s ex a room_id ws).2 = none ∧
    (roomAt (sessionFinish s ex a room_id ws).1 a).connections =
      (roomAt s a).connections.erase ws ∧
    dictGet ((sessionFinish s ex a room_id ws).1).registry room_id =
      (if (roomAt s a).connections.erase ws = [] then none else some a) := by
  have hfin : sessionFinish s ex a room_id ws = sessionCleanup s a room_id ws := by
    cases ex <;> rfl
  have halen : a < s.heap.length :=
    roomAt_lt_of_ne_nil s a (List.ne_nil_of_mem hws)
  rw [hfin]
  by_cases hemp : (roomAt s a).connections.erase ws = []
  · have hres : sessionCleanup s a room_id ws =
        (Server.mk
          (s.heap.set a (DocumentRoom.mk (roomAt s a).room_id
            ((roomAt s a).connections.erase ws) (roomAt s a).state
            (roomAt s a).last_updated))
          (dictDel s.registry room_id), none) := by
      simp only [sessionCleanup, hws, if_true, hemp, hreg]
    rw [hres]
    refine ⟨rfl, ?_, ?_⟩
    · show (heapGet (s.heap.set a _) a).connections = _
      rw [heapGet_set_self _ _ _ halen]
    · simp [hemp, dictGet_dictDel_self]
  · have hres : sessionCleanup s a room_id ws =
        (Server.mk
          (s.heap.set a (DocumentRoom.mk (roomAt s a).room_id
            ((roomAt s a).connections.erase ws) (roomAt s a).state
            (roomAt s a).last_updated))
          s.registry, none) := by
      simp only [sessionCleanup, hws, if_true, hemp, if_false]
    rw [hres]
    refine ⟨rfl, ?_, ?_⟩
    · show (heapGet (s.heap.set a _) a).connections = _
      rw [heapGet_set_self _ _ _ halen]
    · simp [hemp, hreg]

theorem C5_cleanup_completes_when_member_witness :
    2 ∈ (roomAt (Server.mk [DocumentRoom.mk "r" [1, 2] [] 0] [("r", 0)]) 0).connections ∧
    dictGet (Server.mk [DocumentRoom.mk "r" [1, 2] [] 0] [("r", 0)]).registry "r" = some 0 ∧
    ((sessionFinish (Server.mk [DocumentRoom.mk "r" [1, 2] [] 0] [("r", 0)])
        LoopExit.disconnected 0 "r" 2).2 = none ∧
      (roomAt (sessionFinish (Server.mk [DocumentRoom.mk "r" [1, 2] [] 0] [("r", 0)])
          LoopExit.disconnected 0 "r" 2).1 0).connections =
        (roomAt (Server.mk [DocumentRoom.mk "r" [1, 2] [] 0] [("r", 0)]) 0).connections.erase 2 ∧
      dictGet ((sessionFinish (Server.mk [DocumentRoom.mk "r" [1, 2] [] 0] [("r", 0)])
          LoopExit.disconnected 0 "r" 2).1).registry "r" =
        (if (roomAt (Server.mk [DocumentRoom.mk "r" [1, 2] [] 0] [("r", 0)])
            0).connections.erase 2 = [] then none else some 0)) :=
  ⟨by decide, by decide,
    C5_cleanup_completes_when_member (Server.mk [DocumentRoom.mk "r" [1, 2] [] 0] [("r", 0)])
      LoopExit.disconnected 0 "r" 2 (by decide) (by decide)⟩

/-- Registry well-formedness: distinct registered ids refer to distinct room
objects (no two dict entries alias the same heap address). -/
def RegWF (s : Server) : Prop :=
  ∀ p ∈ s.registry, ∀ q ∈ s.registry, p.2 = q.2 → p.1 = q.1

/-- The lifecycle invariant claimed by the spec: every registered room has at
least one member. -/
def NonemptyInv (s : Server) : Prop :=
  ∀ p ∈ s.registry, (roomAt s p.2).connections ≠ []

/-- Events reaching a registered room with no members: clients 1 and 2 join
room "r"; an update from 1 fails to send to 2 (broadcast removes 2); an
update from 2 (whose session is still in its receive loop) fails to send to
1 (broadcast removes 1); both sessions then terminate and their cleanups
raise, so the room is never deleted. -/
def lingerEvents : List Event :=
  [Event.conn "r" 1 0, Event.conn "r" 2 0,
   Event.upd 0 1 [170] 1 (fun c => c == 2),
   Event.upd 0 2 [187] 2 (fun c => c == 1),
   Event.fin LoopExit.error 0 "r" 1,
   Event.fin LoopExit.disconnected 0 "r" 2]

/-- Claim C6 counterexample: after `lingerEvents`, room "r" is still present
in the registry although its membership is empty — even though both members'
session cleanups have already run — and a subsequent join with the same id
observes the old room and is sent its old state, not a fresh empty room. -/
theorem C6_counterexample :
    dictGet (runEvents emptyServer lingerEvents).registry "r" = some 0 ∧
    (roomAt (runEvents emptyServer lingerEvents) 0).connections = [] ∧
    (connect (runEvents emptyServer lingerEvents) "r" 3 5).2.2 = some [170, 187] := by
  refine ⟨?_, ?_, ?_⟩ <;> decide

lemma filter_nofail (l : List Nat) (message : Bytes) (e : Option Nat) :
    l.filter
      (fun c => !decide (c ∈ (broadcastRun message e (fun _ => false) l).disconnected)) = l := by
  have hd : (broadcastRun message e (fun _ => false) l).disconnected = [] := by
    rw [broadcastRun_disconnected]
    simp
  simp only [hd]
  simp

lemma broadcast_nofail_room (r : DocumentRoom) (message : Bytes) (e : Option Nat) :
    (r.broadcast message e (fun _ => false)).1 = r := by
  simp [DocumentRoom.broadcast, filter_nofail]

/-- Claim C6 amended: provided membership only ever shrinks through session
cleanups (i.e. no broadcast send failure removes a member), a room is in the
registry only while it has at least one member: joining keeps every
registered room non-empty (room creation and the first join happen inside
one `connect` step), failure-free updates change no membership, and a
successful cleanup of a present member preserves the invariant and removes
the room from the registry exactly when its last member leaves; a join for
an unregistered id observes a freshly created room with an empty state log
and is sent no snapshot.  (When a broadcast send failure removes members,
the unqualified claim is false: a room can linger in the registry with zero
members and its old state — see the counterexample.) -/
theorem C6_room_lifecycle_amended (s : Server) (hwf : RegWF s) (hinv : NonemptyInv s) :
    (∀ room_id ws now, NonemptyInv (connect s room_id ws now).1) ∧
    (∀ a ws data now, NonemptyInv (receiveUpdate s a ws data now (fun _ => false)).1) ∧
    (∀ ex a room_id ws, dictGet s.registry room_id = some a →
        ws ∈ (roomAt s a).connections →
        NonemptyInv (sessionFinish s ex a room_id ws).1 ∧
        ((roomAt s a).connections.erase ws = [] →
            dictGet ((sessionFinish s ex a room_id ws).1).registry room_id = none)) ∧
    (∀ room_id ws now, dictGet s.registry room_id = none →
        (connect s room_id ws now).2.2 = none ∧
        (roomAt (connect s room_id ws now).1 (connect s room_id ws now).2.1).state = []) := by
  refine ⟨?_, ?_, ?_, ?_⟩
  · intro room_id ws now
    cases hlk : dictGet s.registry room_id with
    | some a =>
      rw [connect_existing s room_id ws now a hlk]
      intro p hp
      have hpa := hinv p hp
      by_cases hpe : p.2 = a
      · rw [hpe]
        have halen : a < s.heap.length := by
          apply roomAt_lt_of_ne_nil
          exact hinv (room_id, a) (mem_of_dictGet_some _ _ _ hlk)
        show (heapGet (s.heap.set a _) a).connections ≠ []
        rw [heapGet_set_self _ _ _ halen]
        exact setAdd_ne_nil _ _
      · show (heapGet (s.heap.set a _) p.2).connections ≠ []
        rw [heapGet_set_ne _ _ _ _ hpe]
        exact hpa
    | none =>
      rw [connect_new s room_id ws now hlk]
      intro p hp
      rcases List.mem_append.mp hp with hps | hpn
      · have hpa := hinv p hps
        have hplt : p.2 < s.heap.length := roomAt_lt_of_ne_nil s p.2 hpa
        show (heapGet (s.heap ++ [DocumentRoom.mk room_id [ws] [] now]) p.2).connections ≠ []
        rw [heapGet_append_lt _ _ _ hplt]
        exact hpa
      · have hpe : p = (room_id, s.heap.length) := by simpa using hpn
        rw [hpe]
        show (heapGet (s.heap ++ [DocumentRoom.mk room_id [ws] [] now])
            s.heap.length).connections ≠ []
        rw [heapGet_append_self]
        simp
  · intro a ws data now
    have hheap : ((receiveUpdate s a ws data now (fun _ => false)).1).heap =
        s.heap.set a (DocumentRoom.mk (roomAt s a).room_id (roomAt s a).connections
          ((roomAt s a).state ++ data) now) := by
      simp only [receiveUpdate]
      rw [broadcast_nofail_room]
    intro p hp
    show (heapGet ((receiveUpdate s a ws data now (fun _ => false)).1).heap p.2).connections ≠ []
    rw [hheap]
    by_cases hpe : p.2 = a
    · rw [hpe]
      by_cases halen : a < s.heap.length
      · rw [heapGet_set_self _ _ _ halen]
        have hpa := hinv p hp
        rw [hpe] at hpa
        exact hpa
      · rw [List.set_eq_of_length_le (Nat.le_of_not_lt halen)]
        have hpa := hinv p hp
        rw [hpe] at hpa
        exact hpa
    · rw [heapGet_set_ne _ _ _ _ hpe]
      exact hinv p hp
  · intro ex a room_id ws hlk hws
    have hfin : sessionFinish s ex a room_id ws = sessionCleanup s a room_id ws := by
      cases ex <;> rfl
    have halen : a < s.heap.length := roomAt_lt_of_ne_nil s a (List.ne_nil_of_mem hws)
    rw [hfin]
    by_cases hemp : (roomAt s a).connections.erase ws = []
    · have hres : sessionCleanup s a room_id ws =
          (Server.mk
            (s.heap.set a (DocumentRoom.mk (roomAt s a).room_id
              ((roomAt s a).connections.erase ws) (roomAt s a).state
              (roomAt s a).last_updated))
            (dictDel s.registry room_id), none) := by
        simp only [sessionCleanup, hws, if_true, hemp, hlk]
      rw [hres]
      constructor
      · intro p hp
        have hmem := (mem_dictDel s.registry room_id p).mp hp
        have hpa : p.2 ≠ a := by
          intro hpe
          exact hmem.2 (hwf p hmem.1 (room_id, a) (mem_of_dictGet_some _ _ _ hlk) hpe)
        show (heapGet (s.heap.set a _) p.2).connections ≠ []
        rw [heapGet_set_ne _ _ _ _ hpa]
        exact hinv p hmem.1
      · intro _
        exact dictGet_dictDel_self _ _
    · have hres : sessionCleanup s a room_id ws =
          (Server.mk
            (s.heap.set a (DocumentRoom.mk (roomAt s a).room_id
              ((roomAt s a).connections.erase ws) (roomAt s a).state
              (roomAt s a).last_updated))
            s.registry, none) := by
        simp only [sessionCleanup, hws, if_true, hemp, if_false]
      rw [hres]
      constructor
      · intro p hp
        by_cases hpe : p.2 = a
        · rw [hpe]
          show (heapGet (s.heap.set a _) a).connections ≠ []
          rw [heapGet_set_self _ _ _ halen]
          exact hemp
        · show (heapGet (s.heap.set a _) p.2).connections ≠ []
          rw [heapGet_set_ne _ _ _ _ hpe]
          exact hinv p hp
      · intro h
        exact absurd h hemp
  · intro room_id ws now hlk
    rw [connect_new s room_id ws now hlk]
    constructor
    · rfl
    · show (heapGet (s.heap ++ [DocumentRoom.mk room_id [ws] [] now])
          s.heap.length).state = []
      rw [heapGet_append_self]

theorem C6_room_lifecycle_amended_witness :
    RegWF (Server.mk [DocumentRoom.mk "r" [1] [] 0] [("r", 0)]) ∧
    NonemptyInv (Server.mk [DocumentRoom.mk "r" [1] [] 0] [("r", 0)]) ∧
    ((∀ room_id ws now,
        NonemptyInv (connect (Server.mk [DocumentRoom.mk "r" [1] [] 0] [("r", 0)])
          room_id ws now).1) ∧
      (∀ a ws data now,
        NonemptyInv (receiveUpdate (Server.mk [DocumentRoom.mk "r" [1] [] 0] [("r", 0)])
          a ws data now (fun _ => false)).1) ∧
      (∀ ex a room_id ws,
        dictGet (Server.mk [DocumentRoom.mk "r" [1] [] 0] [("r", 0)]).registry room_id =
            some a →
        ws ∈ (roomAt (Server.mk [DocumentRoom.mk "r" [1] [] 0] [("r", 0)]) a).connections →
        NonemptyInv (sessionFinish (Server.mk [DocumentRoom.mk "r" [1] [] 0] [("r", 0)])
            ex a room_id ws).1 ∧
        ((roomAt (Server.mk [DocumentRoom.mk "r" [1] [] 0] [("r", 0)])
              a).connections.erase ws = [] →
          dictGet ((sessionFinish (Server.mk [DocumentRoom.mk "r" [1] [] 0] [("r", 0)])
              ex a room_id ws).1).registry room_id = none)) ∧
      (∀ room_id ws now,
        dictGet (Server.mk [DocumentRoom.mk "r" [1] [] 0] [("r", 0)]).registry room_id =
            none →
        (connect (Server.mk [DocumentRoom.mk "r" [1] [] 0] [("r", 0)]) room_id ws now).2.2 =
            none ∧
        (roomAt (connect (Server.mk [DocumentRoom.mk "r" [1] [] 0] [("r", 0)])
              room_id ws now).1
            (connect (Server.mk [DocumentRoom.mk "r" [1] [] 0] [("r", 0)])
              room_id ws now).2.1).state = [])) :=
  ⟨by unfold RegWF; decide, by unfold NonemptyInv; decide,
    C6_room_lifecycle_amended (Server.mk [DocumentRoom.mk "r" [1] [] 0] [("r", 0)])
      (by unfold RegWF; decide) (by unfold NonemptyInv; decide)⟩

lemma heapGet_state_prefix_set (h : List DocumentRoom) (a : Nat) (r : DocumentRoom)
    (hpre : (heapGet h a).state <+: r.state) (a' : Nat) :
    (heapGet h a').state <+: (heapGet (h.set a r) a').state := by
  by_cases hne : a' = a
  · subst hne
    by_cases ha : a' < h.length
    · rw [heapGet_set_self _ _ _ ha]
      exact hpre
    · rw [List.set_eq_of_length_le (Nat.le_of_not_lt ha)]
  · rw [heapGet_set_ne _ _ _ _ hne]

lemma heapGet_state_prefix_append (h l : List DocumentRoom) (a' : Nat) :
    (heapGet h a').state <+: (heapGet (h ++ l) a').state := by
  by_cases ha : a' < h.length
  · rw [heapGet_append_lt _ _ _ ha]
  · rw [heapGet_default _ _ (Nat.le_of_not_lt ha)]
    exact List.nil_prefix

lemma sessionCleanup_heap (s : Server) (b : Nat) (room_id : String) (ws : Nat) :
    ((sessionCleanup s b room_id ws).1).heap = s.heap ∨
    ((sessionCleanup s b room_id ws).1).heap =
      s.heap.set b (DocumentRoom.mk (roomAt s b).room_id
        ((roomAt s b).connections.erase ws) (roomAt s b).state
        (roomAt s b).last_updated) := by
  by_cases hmem : ws ∈ (roomAt s b).connections
  · by_cases hemp : (roomAt s b).connections.erase ws = []
    · cases hd : dictGet s.registry room_id with
      | some x =>
        right
        simp only [sessionCleanup, hmem, if_true, hemp, hd]
      | none =>
        right
        simp only [sessionCleanup, hmem, if_true, hemp, hd]
    · right
      simp only [sessionCleanup, hmem, if_true, hemp, if_false]
  · left
    simp only [sessionCleanup, hmem, if_false]

lemma applyEvent_state_mono (s : Server) (e : Event) (a : Nat) :
    (roomAt s a).state <+: (roomAt (applyEvent s e) a).state := by
  cases e with
  | conn room_id ws now =>
    show (heapGet s.heap a).state <+: (heapGet ((connect s room_id ws now).1).heap a).state
    cases hlk : dictGet s.registry room_id with
    | some b =>
      rw [connect_existing s room_id ws now b hlk]
      show (heapGet s.heap a).state <+:
        (heapGet (s.heap.set b (DocumentRoom.mk (roomAt s b).room_id
          (setAdd (roomAt s b).connections ws) (roomAt s b).state
          (roomAt s b).last_updated)) a).state
      exact heapGet_state_prefix_set s.heap b
        (DocumentRoom.mk (roomAt s b).room_id (setAdd (roomAt s b).connections ws)
          (roomAt s b).state (roomAt s b).last_updated) List.prefix_rfl a
    | none =>
      rw [connect_new s room_id ws now hlk]
      exact heapGet_state_prefix_append s.heap _ a
  | upd b ws data now fails =>
    show (heapGet s.heap a).state <+:
      (heapGet ((receiveUpdate s b ws data now fails).1).heap a).state
    have hheap : ((receiveUpdate s b ws data now fails).1).heap =
        s.heap.set b
          ((DocumentRoom.mk (roomAt s b).room_id (roomAt s b).connections
            ((roomAt s b).state ++ data) now).broadcast data (some ws) fails).1 := by
      simp only [receiveUpdate]
    rw [hheap]
    apply heapGet_state_prefix_set
    rw [broadcast_state]
    exact List.prefix_append _ _
  | fin ex b room_id ws =>
    have hfin : sessionFinish s ex b room_id ws = sessionCleanup s b room_id ws := by
      cases ex <;> rfl
    show (heapGet s.heap a).state <+:
      (heapGet ((sessionFinish s ex b room_id ws).1).heap a).state
    rw [hfin]
    rcases sessionCleanup_heap s b room_id ws with hh | hh
    · rw [hh]
    · rw [hh]
      exact heapGet_state_prefix_set s.heap b
        (DocumentRoom.mk (roomAt s b).room_id ((roomAt s b).connections.erase ws)
          (roomAt s b).state (roomAt s b).last_updated) List.prefix_rfl a

/-- Claim C7: the state log of every room object is append-only: across any
sequence of join (`conn`), receive-loop append + broadcast (`upd`) and
session cleanup (`fin`) events, the previous contents of a room's state
remain an unchanged prefix of the new contents — never reordered, never
truncated. -/
theorem C7_state_log_append_only (s : Server) (es : List Event) (a : Nat) :
    (roomAt s a).state <+: (roomAt (runEvents s es) a).state := by
  induction es generalizing s with
  | nil => exact List.prefix_rfl
  | cons e es ih =>
    exact (applyEvent_state_mono s e a).trans (ih (applyEvent s e))

/-- Claim C8: `load` fails with NotFound (HTTP 404) when the id has never
been saved or has been deleted; `delete` fails with NotFound when the id
does not exist and otherwise removes it; and a save followed by a load of
the same id succeeds and returns the saved content (inside the stored
wrapper document). -/
theorem C8_persistence_roundtrip (st : List (String × StoredDoc)) (doc_id : String)
    (content : String) (now : Nat) :
    (dictGet st doc_id = none →
      get_document st doc_id = Except.error HTTPError.notFound) ∧
    (get_document (save_document st doc_id content now) doc_id =
      Except.ok (StoredDoc.mk doc_id content now)) ∧
    (dictGet st doc_id = none →
      delete_document st doc_id = Except.error HTTPError.notFound) ∧
    (∀ d, dictGet st doc_id = some d →
      delete_document st doc_id = Except.ok (dictDel st doc_id)) ∧
    (∀ st2, delete_document st doc_id = Except.ok st2 →
      get_document st2 doc_id = Except.error HTTPError.notFound) := by
  refine ⟨?_, ?_, ?_, ?_, ?_⟩
  · intro h
    simp [get_document, h]
  · have h1 : dictGet (dictDel st doc_id) doc_id = none := dictGet_dictDel_self st doc_id
    have h2 : dictGet (save_document st doc_id content now) doc_id =
        some (StoredDoc.mk doc_id content now) := by
      unfold save_document
      rw [dictGet_append_none _ _ _ h1]
      simp [dictGet]
    simp [get_document, h2]
  · intro h
    simp [delete_document, h]
  · intro d h
    simp [delete_document, h]
  · intro st2 hdel
    cases hlk : dictGet st doc_id with
    | none =>
      rw [delete_document, hlk] at hdel
      simp at hdel
    | some d =>
      rw [delete_document, hlk] at hdel
      simp at hdel
      rw [← hdel]
      simp [get_document, dictGet_dictDel_self]

theorem C8_persistence_roundtrip_witness :
    (dictGet ([] : List (String × StoredDoc)) "d1" = none →
      get_document ([] : List (String × StoredDoc)) "d1" =
        Except.error HTTPError.notFound) ∧
    (get_document (save_document ([] : List (String × StoredDoc)) "d1" "hello" 0) "d1" =
      Except.ok (StoredDoc.mk "d1" "hello" 0)) ∧
    (dictGet ([] : List (String × StoredDoc)) "d1" = none →
      delete_document ([] : List (String × StoredDoc)) "d1" =
        Except.error HTTPError.notFound) ∧
    (∀ d, dictGet ([] : List (String × StoredDoc)) "d1" = some d →
      delete_document ([] : List (String × StoredDoc)) "d1" =
        Except.ok (dictDel ([] : List (String × StoredDoc)) "d1")) ∧
    (∀ st2, delete_document ([] : List (String × StoredDoc)) "d1" = Except.ok st2 →
      get_document st2 "d1" = Except.error HTTPError.notFound) :=
  C8_persistence_roundtrip [] "d1" "hello" 0
